import Mathlib

/-!
# Verification of the bk-hcm reconciliation core

Shallow embedding of the diff-and-apply reconciliation engine and the
declarative persistence layer of bk-hcm:

* `cmd/hc-service/logics/res-sync/aws/region.go` — the AWS region
  reconciliation driver (`Region`, `createRegion`, `updateRegion`,
  `deleteRegion`, `listRegionFromDB`, `isRegionChange`);
* `pkg/adaptor/gcp/firewall_rule.go` — the GCP firewall-rule adaptor
  (`UpdateFirewallRule`, `DeleteFirewallRule`);
* `pkg/dal/table/table.go` — the SQL statement builder
  (`TableManager`, `SQLForInsert`, `SQLForUpdate`, `FieldKVForUpdate`,
  `listInsertFields`).

External calls (cloud listings, store writes) are modelled by passing their
results in as explicit parameters; the trace of store-write calls issued by a
run is returned alongside the result, so frame properties ("no delete was
issued") are statable.  The `panic` and `error` returns of Go are both modelled
with `Except`/`Option String`.
-/

namespace BkHcm

/-! ## Data model: AWS region records (cloud view and store view)

`typesregion.AwsRegion` (cloud view) and `cloudcore.AwsRegion` (store view,
carrying the surrogate key `id`). -/

/-- Cloud view of an AWS region (`typesregion.AwsRegion`). -/
structure AwsRegion where
  regionID : String
  regionName : String
  regionState : String
  endpoint : String
deriving DecidableEq, Repr

/-- Store view of an AWS region (`cloudcore.AwsRegion`): surrogate key `id`
plus the cloud fields. -/
structure AwsRegionDB where
  id : String
  regionID : String
  regionName : String
  status : String
  endpoint : String
deriving DecidableEq, Repr

/-! ## Diff engine -/

/-- Modelled from the spec: the store-side lookup of `common.Diff`
(`cmd/hc-service/logics/res-sync/common`, not under `src/`): "build a lookup
from store-side cloud identifier to its surrogate key and value". -/
def diffLookup {S : Type} (keyS : S → String) (storeView : List S) (id : String) : Option S :=
  storeView.find? (fun s => keyS s = id)

/-- Modelled from the spec: the per-cloud-record case analysis of `common.Diff`
on the store lookup — "otherwise apply `changed(cloudRecord, storeRecord)` —
if true, place `(surrogateKey, cloudRecord)` in `toUpdate`, else drop it". -/
def updateCandidate {C S : Type} (skey : S → String) (isChange : C → S → Bool)
    (c : C) : Option S → Option (String × C)
  | some s => if isChange c s then some (skey s, c) else none
  | none => none

/-- Modelled from the spec: the generic diff engine `common.Diff`
(`cmd/hc-service/logics/res-sync/common`, not under `src/`; only its caller
`Region` is in `src/`).  "For each cloud-side record, if its identifier is
absent from the store lookup, place it in `toCreate`; otherwise apply
`changed(cloudRecord, storeRecord)` — if true, place `(surrogateKey,
cloudRecord)` in `toUpdate`, else drop it.  Any store-side identifier never
visited by the above pass is placed in `toDeleteCloudIDs`."  `keyC`/`keyS`
project the cloud identifier out of each view and `skey` projects the
surrogate key. -/
def Diff {C S : Type} (keyC : C → String) (keyS : S → String) (skey : S → String)
    (cloudView : List C) (storeView : List S) (isChange : C → S → Bool) :
    List C × List (String × C) × List String :=
  let toCreate := cloudView.filter (fun c => (diffLookup keyS storeView (keyC c)).isNone)
  let toUpdate := cloudView.filterMap (fun c =>
    updateCandidate skey isChange c (diffLookup keyS storeView (keyC c)))
  let delCloudIDs := (storeView.filter (fun s => cloudView.all (fun c => !(keyC c == keyS s)))).map keyS
  (toCreate, toUpdate, delCloudIDs)

/-- Cloud identifiers of the `toCreate` output of `Diff`. -/
def diffCreateIDs {C S : Type} (keyC : C → String) (keyS : S → String) (skey : S → String)
    (cloudView : List C) (storeView : List S) (isChange : C → S → Bool) : List String :=
  (Diff keyC keyS skey cloudView storeView isChange).1.map keyC

/-- Cloud identifiers of the `toUpdate` output of `Diff`. -/
def diffUpdateIDs {C S : Type} (keyC : C → String) (keyS : S → String) (skey : S → String)
    (cloudView : List C) (storeView : List S) (isChange : C → S → Bool) : List String :=
  (Diff keyC keyS skey cloudView storeView isChange).2.1.map (fun p => keyC p.2)

/-- The `toDeleteCloudIDs` output of `Diff`. -/
def diffDeleteIDs {C S : Type} (keyC : C → String) (keyS : S → String) (skey : S → String)
    (cloudView : List C) (storeView : List S) (isChange : C → S → Bool) : List String :=
  (Diff keyC keyS skey cloudView storeView isChange).2.2

/-- The case analysis dual to `updateCandidate`: the cloud identifier of a
record dropped as a no-op. -/
def unchangedCandidate {C S : Type} (keyC : C → String) (isChange : C → S → Bool)
    (c : C) : Option S → Option String
  | some s => if isChange c s then none else some (keyC c)
  | none => none

/-- Cloud identifiers present in both views whose records compare as
unchanged ("drop it (no-op, treated as already consistent)"). -/
def diffUnchangedIDs {C S : Type} (keyC : C → String) (keyS : S → String)
    (cloudView : List C) (storeView : List S) (isChange : C → S → Bool) : List String :=
  cloudView.filterMap (fun c =>
    unchangedCandidate keyC isChange c (diffLookup keyS storeView (keyC c)))

/-- The change predicate for AWS regions (`isRegionChange`,
`region.go:272-287`): compares region id, region name and region state; the
endpoint field is not compared. -/
def isRegionChange (cloud : AwsRegion) (db : AwsRegionDB) : Bool :=
  if cloud.regionID ≠ db.regionID then true
  else if cloud.regionName ≠ db.regionName then true
  else if cloud.regionState ≠ db.status then true
  else false

/-! ## Store-call shapes -/

/-- Modelled from the spec: `tools.ContainersExpression` (`pkg/dal/dao/tools`,
not under `src/`): builds an "in-set" atomic filter rule matching `field`
against the given batch of values. -/
structure InSetFilter where
  field : String
  op : String
  values : List String
deriving DecidableEq, Repr

/-- Modelled from the spec: constructor for the "in-set" filter predicate used
by the delete batches. -/
def containersExpression (field : String) (values : List String) : InSetFilter :=
  { field := field, op := "in", values := values }

/-- Store-insert record for an AWS region (`dataregion.AwsRegionBatchCreate`). -/
structure AwsRegionBatchCreate where
  vendor : String
  accountID : String
  regionID : String
  regionName : String
  status : String
  endpoint : String
deriving DecidableEq, Repr

/-- Store-update record for an AWS region (`dataregion.AwsRegionBatchUpdate`). -/
structure AwsRegionBatchUpdate where
  id : String
  accountID : String
  regionID : String
  regionName : String
  status : String
  endpoint : String
deriving DecidableEq, Repr

/-- One write call issued to the data-service store by the region driver. -/
inductive StoreCall where
  | delete (f : InSetFilter)
  | create (rs : List AwsRegionBatchCreate)
  | update (rs : List AwsRegionBatchUpdate)
deriving DecidableEq, Repr

/-- Modelled from the spec: `slice.Split` (`pkg/tools/slice`, not under
`src/`): "split `toDeleteCloudIDs` into fixed-size batches (bound = a
configured max-batch constant)" — consecutive batches of at most `limit`
elements. -/
def sliceSplit {α : Type} (xs : List α) (limit : Nat) : List (List α) :=
  if h : limit = 0 then []
  else
    match xs with
    | [] => []
    | x :: rest => (x :: rest).take limit :: sliceSplit ((x :: rest).drop limit) limit
termination_by xs.length
decreasing_by
  simp only [List.length_drop, List.length_cons]
  omega

/-! ## Region reconciliation driver (`region.go`) -/

/-- `SyncRegionOption` (`region.go:44-47`): `AccountID` is validated as
required. -/
structure SyncRegionOption where
  accountID : String
  awsCN : Bool
deriving DecidableEq, Repr

/-- The empty `SyncResult` returned by a successful pass (`new(SyncResult)`). -/
structure SyncResult where
deriving DecidableEq, Repr

/-- Issue the per-batch delete calls of `deleteRegion` (`region.go:190-202`):
one `BatchDelete` per batch, stopping at the first store failure.  Returns the
calls actually issued and the error of the failing call, if any. -/
def runDeleteBatches (batches : List StoreCall) (store : StoreCall → Option String) :
    List StoreCall × Option String :=
  match batches with
  | [] => ([], none)
  | b :: rest =>
    match store b with
    | some e => ([b], some e)
    | none =>
      let r := runDeleteBatches rest store
      (b :: r.1, r.2)

/-- `deleteRegion` (`region.go:170-208`).  `cloudSecond` is the result of the
second `listRegionFromCloud` fetch; `store` gives the outcome of each
`BatchDelete` call.  Returns the issued store calls and the error returned to
the caller, if any. -/
def deleteRegion (delCloudIDs : List String) (cloudSecond : Except String (List AwsRegion))
    (maxLimit : Nat) (store : StoreCall → Option String) :
    List StoreCall × Option String :=
  if delCloudIDs.length = 0 then ([], some "region delCloudIDs is <= 0, not delete")
  else
    match cloudSecond with
    | .error e => ([], some e)
    | .ok delRegionFromCloud =>
      if delRegionFromCloud.any (fun one => delCloudIDs.contains one.regionID) then
        ([], some "validate region not exist failed, before delete")
      else
        runDeleteBatches
          ((sliceSplit delCloudIDs maxLimit).map
            (fun parts => StoreCall.delete (containersExpression "region_id" parts)))
          store

/-- `createRegion` (`region.go:98-132`): maps each cloud record to a
store-insert record and issues one batched `BatchCreate` call. -/
def createRegion (opt : SyncRegionOption) (addSlice : List AwsRegion)
    (store : StoreCall → Option String) : List StoreCall × Option String :=
  if addSlice.length = 0 then ([], some "region addSlice is <= 0, not create")
  else
    let createResources := addSlice.map (fun one =>
      { vendor := "aws", accountID := opt.accountID, regionID := one.regionID,
        regionName := one.regionName, status := one.regionState,
        endpoint := one.endpoint : AwsRegionBatchCreate })
    let call := StoreCall.create createResources
    ([call], store call)

/-- `updateRegion` (`region.go:134-168`): maps each `(surrogateKey, cloud
record)` pair to a store-update record and issues one batched `BatchUpdate`
call. -/
def updateRegion (opt : SyncRegionOption) (updateMap : List (String × AwsRegion))
    (store : StoreCall → Option String) : List StoreCall × Option String :=
  if updateMap.length = 0 then ([], some "region updateMap is <= 0, not update")
  else
    let updateResources := updateMap.map (fun p =>
      { id := p.1, accountID := opt.accountID, regionID := p.2.regionID,
        regionName := p.2.regionName, status := p.2.regionState,
        endpoint := p.2.endpoint : AwsRegionBatchUpdate })
    let call := StoreCall.update updateResources
    ([call], store call)

/-- The page-fetch loop of `listRegionFromDB` (`region.go:250-267`), recording
each requested offset with the page it returned.  The backing collection
stands for the filtered store contents; a page request at offset `start` with
page limit `limit` returns records `[start, start+limit)`.  The loop stops
after the first page whose returned count is strictly less than `limit`. -/
def listRegionPages {α : Type} (backing : List α) (limit start : Nat) :
    List (Nat × List α) :=
  if h : limit = 0 then []
  else if hlt : ((backing.drop start).take limit).length < limit then
    [(start, (backing.drop start).take limit)]
  else
    (start, (backing.drop start).take limit) :: listRegionPages backing limit (start + limit)
termination_by backing.length - start
decreasing_by
  simp only [List.length_take, List.length_drop, not_lt] at hlt
  omega

/-- `listRegionFromDB` (`region.go:226-270`): all records drained from the
paginated store reader, in order. -/
def listRegionFromDB {α : Type} (backing : List α) (limit : Nat) : List α :=
  ((listRegionPages backing limit 0).map Prod.snd).flatten

/-- The offsets requested by the `listRegionFromDB` loop, in order. -/
def listRegionOffsets {α : Type} (backing : List α) (limit : Nat) : List Nat :=
  (listRegionPages backing limit 0).map Prod.fst

/-- `Region` (`region.go:55-96`): one reconciliation pass.  `cloudFirst` and
`cloudSecond` are the results of the two cloud fetches (they may differ — a
listing race); `dbBacking` is the store contents drained by the paginated
reader with page limit `pageLimit`; `store` gives the outcome of each store
write.  Returns the trace of issued store calls and the result. -/
def RegionSync (opt : SyncRegionOption) (cloudFirst : Except String (List AwsRegion))
    (dbBacking : List AwsRegionDB) (pageLimit : Nat)
    (cloudSecond : Except String (List AwsRegion)) (maxLimit : Nat)
    (store : StoreCall → Option String) : List StoreCall × Except String SyncResult :=
  if opt.accountID = "" then ([], .error "invalid parameter")
  else
    match cloudFirst with
    | .error e => ([], .error e)
    | .ok regionFromCloud =>
      let regionFromDB := listRegionFromDB dbBacking pageLimit
      if regionFromCloud.length = 0 ∧ regionFromDB.length = 0 then ([], .ok {})
      else
        let d := Diff (fun c => c.regionID) (fun s => s.regionID) (fun s => s.id)
          regionFromCloud regionFromDB isRegionChange
        let delPhase :=
          if 0 < d.2.2.length then deleteRegion d.2.2 cloudSecond maxLimit store
          else ([], none)
        match delPhase.2 with
        | some e => (delPhase.1, .error e)
        | none =>
          let createPhase :=
            if 0 < d.1.length then createRegion opt d.1 store else ([], none)
          match createPhase.2 with
          | some e => (delPhase.1 ++ createPhase.1, .error e)
          | none =>
            let updatePhase :=
              if 0 < d.2.1.length then updateRegion opt d.2.1 store else ([], none)
            match updatePhase.2 with
            | some e => (delPhase.1 ++ createPhase.1 ++ updatePhase.1, .error e)
            | none => (delPhase.1 ++ createPhase.1 ++ updatePhase.1, .ok {})

/-! ## SQL statement builder (`pkg/dal/table/table.go`)

The reflected schema of a record type is modelled by `modelFields` (the ordered
list of `db`-tagged field names, what `listModelFields`/`ListTableFields`
produce) together with `value : String → String`, the reflective lookup of a
value of a field by its `db` tag.  `typeName`/`tableName` stand for the
reflected type name and `TableName()`.  The Go `panic` is modelled as
`Except.error`. -/

/-- `updateTimeField` (`table.go:32`). -/
def updateTimeField : String := "updated_at"

/-- Modelled from the spec: `slice.Remove` (`pkg/tools/slice`, not under
`src/`): removes every occurrence of `x` from the list ("minus the managed
timestamp field"). -/
def sliceRemove (xs : List String) (x : String) : List String :=
  xs.filter (fun f => f ≠ x)

/-- `TableManager` (`table.go:48-53`): the caller-declared insert and update
field lists. -/
structure TableManager where
  InsertFields : List String
  UpdateFields : List String
deriving DecidableEq, Repr

/-- The validation loop of `listInsertFields` (`table.go:162-168`): walks the
declared fields, panicking (modelled as `.error`) at the first field not among
the `db`-tagged fields of the schema. -/
def checkFieldsIn (fields modelFields : List String) (typeName : String) :
    Except String (List String) :=
  match fields with
  | [] => .ok []
  | f :: rest =>
    if modelFields.contains f then
      match checkFieldsIn rest modelFields typeName with
      | .ok l => .ok (f :: l)
      | .error e => .error e
    else .error ("field " ++ f ++ " not in " ++ typeName ++ " db tag")

/-- `listInsertFields` (`table.go:154-171`): the full schema when no insert
fields are declared, otherwise the declared subset, validated against the
schema. -/
def listInsertFields (tm : TableManager) (modelFields : List String)
    (typeName : String) : Except String (List String) :=
  if tm.InsertFields.length = 0 then .ok modelFields
  else checkFieldsIn tm.InsertFields modelFields typeName

/-- `SQLForInsert` (`table.go:56-72`): insert column list (minus the surrogate
primary key `id`) and the named-placeholder value list. -/
def SQLForInsert (tm : TableManager) (tableName typeName : String)
    (modelFields : List String) : Except String String :=
  match listInsertFields tm modelFields typeName with
  | .error e => .error e
  | .ok fields =>
    let insertFields := sliceRemove fields "id"
    let fieldsWithColon := insertFields.map (fun f => ":" ++ f)
    .ok ("INSERT INTO " ++ tableName ++ " (" ++ String.intercalate ", " insertFields
      ++ ") VALUES (" ++ String.intercalate ", " fieldsWithColon ++ ")")

/-- The per-field loop of `FieldKVForUpdate` (`table.go:113-118`): validates
each declared update field against the schema (panic modelled as `.error`) and
pairs it with its reflected value. -/
def fieldKVLoop (fields modelFields : List String) (typeName : String)
    (value : String → String) : Except String (List (String × String)) :=
  match fields with
  | [] => .ok []
  | f :: rest =>
    if modelFields.contains f then
      match fieldKVLoop rest modelFields typeName value with
      | .ok kv => .ok ((f, value f) :: kv)
      | .error e => .error e
    else .error ("field " ++ f ++ " not in " ++ typeName ++ " db tag")

/-- `FieldKVForUpdate` (`table.go:95-121`): removes the managed timestamp
field from the declared update fields, then validates each remaining field and
extracts its value. -/
def FieldKVForUpdate (tm : TableManager) (modelFields : List String)
    (typeName : String) (value : String → String) :
    Except String (List (String × String)) :=
  fieldKVLoop (sliceRemove tm.UpdateFields updateTimeField) modelFields typeName value

/-- `SQLForUpdate` (`table.go:75-92`): WHERE clause from the filter translator
(its result is passed in as `whereExpr`; the translator `SQLWhereExpr` lives
in `pkg/runtime/filter`, outside `src/`), SET clause from `FieldKVForUpdate`,
plus `updated_at = now()` whenever the schema has the timestamp column. -/
def SQLForUpdate (tm : TableManager) (tableName typeName : String)
    (modelFields : List String) (value : String → String)
    (whereExpr : Except String String) : Except String String :=
  match whereExpr with
  | .error e => .error e
  | .ok w =>
    match FieldKVForUpdate tm modelFields typeName value with
    | .error e => .error e
    | .ok kv =>
      let setFields := kv.map (fun p => p.1 ++ " = :" ++ p.1)
      let setFields :=
        if modelFields.contains updateTimeField then
          setFields ++ [updateTimeField ++ " = now()"]
        else setFields
      .ok ("UPDATE " ++ tableName ++ " set " ++ String.intercalate ", " setFields
        ++ " " ++ w)

/-! ## GCP firewall-rule adaptor (`pkg/adaptor/gcp/firewall_rule.go`) -/

/-- One protocol/ports entry of a firewall rule option
(`corecloud.Protocol*` entries carried in `GcpFirewallRule.Allowed` /
`.Denied`). -/
structure ProtocolSet where
  protocol : String
  port : List String
deriving DecidableEq, Repr

/-- The rule payload of an update option (`opt.GcpFirewallRule`). -/
structure GcpFirewallRule where
  description : String
  destinationRanges : List String
  disabled : Bool
  priority : Int
  sourceRanges : List String
  sourceTags : List String
  targetTags : List String
  sourceServiceAccounts : List String
  targetServiceAccounts : List String
  allowed : List ProtocolSet
  denied : List ProtocolSet
deriving DecidableEq, Repr

/-- `compute.FirewallAllowed` entry of the patch request. -/
structure FirewallAllowed where
  ipProtocol : String
  ports : List String
deriving DecidableEq, Repr

/-- `compute.FirewallDenied` entry of the patch request. -/
structure FirewallDenied where
  ipProtocol : String
  ports : List String
deriving DecidableEq, Repr

/-- The `compute.Firewall` patch request built by `UpdateFirewallRule`. -/
structure Firewall where
  description : String
  destinationRanges : List String
  disabled : Bool
  priority : Int
  sourceRanges : List String
  sourceTags : List String
  targetTags : List String
  sourceServiceAccounts : List String
  targetServiceAccounts : List String
  allowed : List FirewallAllowed
  denied : List FirewallDenied
deriving DecidableEq, Repr

/-- `UpdateOption` of the firewall-rule adaptor (`firewallrule.UpdateOption`):
the cloud identifier of the rule and the new rule payload. -/
structure UpdateOption where
  cloudID : String
  gcpFirewallRule : GcpFirewallRule
deriving DecidableEq, Repr

/-- The construction of the `compute.Firewall` patch request inside
`UpdateFirewallRule` (`firewall_rule.go:82-112`).  Note the `Denied` branch
(`firewall_rule.go:104-112`): it is guarded by `len(Denied) != 0` but ranges
over `opt.GcpFirewallRule.Allowed`. -/
def buildFirewallUpdate (r : GcpFirewallRule) : Firewall :=
  let base : Firewall :=
    { description := r.description, destinationRanges := r.destinationRanges,
      disabled := r.disabled, priority := r.priority,
      sourceRanges := r.sourceRanges, sourceTags := r.sourceTags,
      targetTags := r.targetTags,
      sourceServiceAccounts := r.sourceServiceAccounts,
      targetServiceAccounts := r.targetServiceAccounts,
      allowed := [], denied := [] }
  let base :=
    if r.allowed.length ≠ 0 then
      { base with allowed := r.allowed.map (fun one => ⟨one.protocol, one.port⟩) }
    else base
  if r.denied.length ≠ 0 then
    { base with denied := r.allowed.map (fun one => ⟨one.protocol, one.port⟩) }
  else base

/-- `UpdateFirewallRule` (`firewall_rule.go:68-121`).  `validateErr` is the
outcome of `opt.Validate()`, `clientResult` of `computeClient`, and `patchErr`
of the `Firewalls.Patch(...).Do()` call.  Returns the patch request actually
sent (`none` when the call was never reached) and the error returned to the
caller.  When the patch call fails the source logs the failure and then
returns `nil` (`firewall_rule.go:114-120`). -/
def UpdateFirewallRule (opt : Option UpdateOption)
    (validateErr : Option String) (clientResult : Except String Unit)
    (patchErr : Option String) : Option Firewall × Except String Unit :=
  match opt with
  | none => (none, .error "update option is required")
  | some o =>
    match validateErr with
    | some e => (none, .error e)
    | none =>
      match clientResult with
      | .error e => (none, .error e)
      | .ok _ =>
        let update := buildFirewallUpdate o.gcpFirewallRule
        match patchErr with
        | some _ => (some update, .ok ())
        | none => (some update, .ok ())

/-- `DeleteOption` of the firewall-rule adaptor (`firewallrule.DeleteOption`). -/
structure DeleteOption where
  cloudID : String
deriving DecidableEq, Repr

/-- `DeleteFirewallRule` (`firewall_rule.go:125-145`).  Returns whether the
`Firewalls.Delete(...).Do()` call was issued and the error returned to the
caller.  When the delete call fails the source logs the failure and then
returns `nil` (`firewall_rule.go:139-144`). -/
def DeleteFirewallRule (opt : Option DeleteOption)
    (validateErr : Option String) (clientResult : Except String Unit)
    (deleteErr : Option String) : Bool × Except String Unit :=
  match opt with
  | none => (false, .error "delete option is required")
  | some _ =>
    match validateErr with
    | some e => (false, .error e)
    | none =>
      match clientResult with
      | .error e => (false, .error e)
      | .ok _ =>
        match deleteErr with
        | some _ => (true, .ok ())
        | none => (true, .ok ())

/-! ## Helper lemmas: the paginated store reader -/

theorem listRegionPages_join {α : Type} (backing : List α) (limit : Nat) (h : 0 < limit)
    (start : Nat) :
    ((listRegionPages backing limit start).map Prod.snd).flatten = backing.drop start := by
  induction start using listRegionPages.induct backing limit with
  | case1 x hx => omega
  | case2 x hx hlt =>
    rw [listRegionPages]
    simp only [dif_neg hx, dif_pos hlt, List.map_cons, List.map_nil, List.flatten]
    simp only [List.length_take, List.length_drop, lt_min_iff] at hlt
    rw [List.take_of_length_le (by simp; omega)]
    simp
  | case3 x hx hlt ih =>
    rw [listRegionPages]
    simp only [dif_neg hx, dif_neg hlt, List.map_cons, List.flatten_cons]
    rw [ih]
    rw [← List.drop_drop]
    exact List.take_append_drop _ _

theorem listRegionPages_length {α : Type} (backing : List α) (limit : Nat) (h : 0 < limit)
    (start : Nat) :
    (listRegionPages backing limit start).length = (backing.length - start) / limit + 1 := by
  induction start using listRegionPages.induct backing limit with
  | case1 x hx => omega
  | case2 x hx hlt =>
    rw [listRegionPages]
    simp only [dif_neg hx, dif_pos hlt, List.length_singleton]
    simp only [List.length_take, List.length_drop] at hlt
    have hm : backing.length - x < limit := by omega
    rw [Nat.div_eq_of_lt hm]
  | case3 x hx hlt ih =>
    rw [listRegionPages]
    simp only [dif_neg hx, dif_neg hlt, List.length_cons]
    rw [ih]
    simp only [List.length_take, List.length_drop, not_lt] at hlt
    have hle : limit ≤ backing.length - x := by omega
    have heq : backing.length - (x + limit) = backing.length - x - limit := by omega
    rw [heq, Nat.div_eq_sub_div h hle]

theorem listRegionPages_offset_list {α : Type} (backing : List α) (limit : Nat) (h : 0 < limit)
    (start : Nat) :
    (listRegionPages backing limit start).map Prod.fst =
      (List.range ((backing.length - start) / limit + 1)).map (fun i => start + i * limit) := by
  induction start using listRegionPages.induct backing limit with
  | case1 x hx => omega
  | case2 x hx hlt =>
    rw [listRegionPages]
    simp only [dif_neg hx, dif_pos hlt, List.map_cons, List.map_nil]
    simp only [List.length_take, List.length_drop] at hlt
    have hm : backing.length - x < limit := by omega
    rw [Nat.div_eq_of_lt hm]
    simp [List.range_succ]
  | case3 x hx hlt ih =>
    rw [listRegionPages]
    simp only [dif_neg hx, dif_neg hlt, List.map_cons]
    rw [ih]
    simp only [List.length_take, List.length_drop, not_lt] at hlt
    have hle : limit ≤ backing.length - x := by omega
    have heq : backing.length - (x + limit) = backing.length - x - limit := by omega
    rw [heq, Nat.div_eq_sub_div h hle]
    conv_rhs => rw [List.range_succ_eq_map, List.map_cons, List.map_map]
    have hfun : ((fun i => x + i * limit) ∘ Nat.succ) = (fun i => x + limit + i * limit) := by
      funext i
      simp only [Function.comp_apply, Nat.succ_eq_add_one]
      ring
    rw [hfun]
    simp

theorem listRegionFromDB_all {α : Type} (backing : List α) (limit : Nat) (h : 0 < limit) :
    listRegionFromDB backing limit = backing := by
  have := listRegionPages_join backing limit h 0
  simpa [listRegionFromDB] using this

theorem listRegionFromDB_nil {α : Type} (limit : Nat) :
    listRegionFromDB ([] : List α) limit = [] := by
  rcases Nat.eq_zero_or_pos limit with h | h
  · subst h
    rw [listRegionFromDB, listRegionPages]
    simp
  · exact listRegionFromDB_all [] limit h

/-- C4: the paginated store reader requests pages starting at offset 0 with
offsets increasing by the page size, returns all records of the backing
collection in their original order, and issues exactly `n / p + 1` page
requests, terminating after the first page strictly shorter than `p`. -/
theorem listRegionFromDB_pagination {α : Type} (backing : List α) (limit : Nat)
    (h : 0 < limit) :
    listRegionFromDB backing limit = backing ∧
    listRegionOffsets backing limit =
      (List.range (backing.length / limit + 1)).map (fun i => i * limit) ∧
    (listRegionPages backing limit 0).length = backing.length / limit + 1 := by
  refine ⟨listRegionFromDB_all backing limit h, ?_, ?_⟩
  · have := listRegionPages_offset_list backing limit h 0
    rw [listRegionOffsets, this]
    simp
  · have := listRegionPages_length backing limit h 0
    simpa using this

theorem listRegionFromDB_pagination_witness :
    (0 : Nat) < 2 ∧
    (listRegionFromDB [1, 2, 3, 4, 5] 2 = [1, 2, 3, 4, 5] ∧
      listRegionOffsets [1, 2, 3, 4, 5] 2 =
        (List.range ([1, 2, 3, 4, 5].length / 2 + 1)).map (fun i => i * 2) ∧
      (listRegionPages [1, 2, 3, 4, 5] 2 0).length = [1, 2, 3, 4, 5].length / 2 + 1) ∧
    listRegionOffsets [1, 2, 3, 4, 5] 2 = [0, 2, 4] ∧
    (listRegionPages [(1 : Nat), 2, 3, 4] 2 0).length = 3 ∧
    (listRegionPages [(1 : Nat), 2, 3, 4] 2 0).map Prod.snd = [[1, 2], [3, 4], []] := by
  refine ⟨by decide, listRegionFromDB_pagination [1, 2, 3, 4, 5] 2 (by decide), ?_, ?_, ?_⟩
  · simp [listRegionOffsets, listRegionPages]
  · simp [listRegionPages]
  · simp [listRegionPages]

/-- C8: when both the cloud view and the store view fetched by a
reconciliation pass are empty, the pass returns success and issues no store
write or delete call at all. -/
theorem region_sync_empty_views_no_calls (opt : SyncRegionOption) (h : opt.accountID ≠ "")
    (pageLimit maxLimit : Nat) (cloudSecond : Except String (List AwsRegion))
    (store : StoreCall → Option String) :
    RegionSync opt (.ok []) [] pageLimit cloudSecond maxLimit store = ([], .ok {}) := by
  simp [RegionSync, h, listRegionFromDB_nil]

theorem region_sync_empty_views_no_calls_witness :
    ({ accountID := "acc-1", awsCN := false } : SyncRegionOption).accountID ≠ "" ∧
    RegionSync { accountID := "acc-1", awsCN := false } (.ok []) [] 500 (.ok []) 500
      (fun _ => none) = ([], .ok {}) := by
  refine ⟨by decide, region_sync_empty_views_no_calls _ (by decide) _ _ _ _⟩

/-- C9: when the `Denied` list of the update option is non-empty,
`UpdateFirewallRule` populates the `Denied` entries of the patch request by
iterating the `Allowed` list of the option — one entry per `Allowed` entry,
carrying the protocol and ports of that entry — not from the `Denied`
entries. -/
theorem update_firewall_denied_from_allowed (o : UpdateOption) (patchErr : Option String)
    (h : o.gcpFirewallRule.denied ≠ []) :
    (UpdateFirewallRule (some o) none (.ok ()) patchErr).1 =
      some (buildFirewallUpdate o.gcpFirewallRule) ∧
    (buildFirewallUpdate o.gcpFirewallRule).denied =
      o.gcpFirewallRule.allowed.map
        (fun one => { ipProtocol := one.protocol, ports := one.port }) ∧
    (buildFirewallUpdate o.gcpFirewallRule).denied.length =
      o.gcpFirewallRule.allowed.length := by
  have hlen : o.gcpFirewallRule.denied.length ≠ 0 := by
    simpa [List.length_eq_zero] using h
  have hden : (buildFirewallUpdate o.gcpFirewallRule).denied =
      o.gcpFirewallRule.allowed.map
        (fun one => { ipProtocol := one.protocol, ports := one.port }) := by
    simp [buildFirewallUpdate, hlen]
  refine ⟨?_, hden, ?_⟩
  · cases patchErr <;> rfl
  · rw [hden, List.length_map]

theorem update_firewall_denied_from_allowed_witness :
    (({ cloudID := "fw-1",
        gcpFirewallRule :=
          { description := "", destinationRanges := [], disabled := false,
            priority := 1000, sourceRanges := ["0.0.0.0/0"], sourceTags := [],
            targetTags := [], sourceServiceAccounts := [], targetServiceAccounts := [],
            allowed := [{ protocol := "tcp", port := ["80"] }],
            denied := [{ protocol := "udp", port := ["53"] }] } } :
        UpdateOption).gcpFirewallRule.denied ≠ []) ∧
    (buildFirewallUpdate
        ({ description := "", destinationRanges := [], disabled := false,
           priority := 1000, sourceRanges := ["0.0.0.0/0"], sourceTags := [],
           targetTags := [], sourceServiceAccounts := [], targetServiceAccounts := [],
           allowed := [{ protocol := "tcp", port := ["80"] }],
           denied := [{ protocol := "udp", port := ["53"] }] } : GcpFirewallRule)).denied =
      [{ ipProtocol := "tcp", ports := ["80"] }] := by
  constructor
  · decide
  · have := update_firewall_denied_from_allowed
      { cloudID := "fw-1",
        gcpFirewallRule :=
          { description := "", destinationRanges := [], disabled := false,
            priority := 1000, sourceRanges := ["0.0.0.0/0"], sourceTags := [],
            targetTags := [], sourceServiceAccounts := [], targetServiceAccounts := [],
            allowed := [{ protocol := "tcp", port := ["80"] }],
            denied := [{ protocol := "udp", port := ["53"] }] } }
      none (by decide)
    simpa using this.2.1

/-- C3 (code bug): `UpdateFirewallRule` and `DeleteFirewallRule` return
success to their caller even when the underlying `Firewalls.Patch` /
`Firewalls.Delete` cloud call fails — the failure is logged and then
swallowed (`firewall_rule.go:114-121` and `139-144` return `nil`
unconditionally after the call). -/
theorem firewall_patch_delete_errors_swallowed :
    (UpdateFirewallRule
        (some { cloudID := "fw-1",
                gcpFirewallRule :=
                  { description := "", destinationRanges := [], disabled := false,
                    priority := 1000, sourceRanges := [], sourceTags := [],
                    targetTags := [], sourceServiceAccounts := [],
                    targetServiceAccounts := [], allowed := [], denied := [] } })
        none (.ok ()) (some "patch failed")).2 = .ok () ∧
    (DeleteFirewallRule (some { cloudID := "fw-1" }) none (.ok ())
        (some "delete failed")).2 = .ok () :=
  ⟨rfl, rfl⟩

/-- C10: a cloud region record and a store region record that agree on
region id, region name and region state but differ only in the endpoint field
compare as unchanged under `isRegionChange`, so the pair lands in none of the
output sets of the diff, and a reconciliation pass over exactly this pair
issues no store call — the stored endpoint is never refreshed. -/
theorem region_change_ignores_endpoint (c : AwsRegion) (d : AwsRegionDB)
    (hid : c.regionID = d.regionID) (hname : c.regionName = d.regionName)
    (hstate : c.regionState = d.status) (hend : c.endpoint ≠ d.endpoint)
    (opt : SyncRegionOption) (hacct : opt.accountID ≠ "")
    (pageLimit : Nat) (hpl : 0 < pageLimit)
    (cloudSecond : Except String (List AwsRegion)) (maxLimit : Nat)
    (store : StoreCall → Option String) :
    isRegionChange c d = false ∧
    Diff (fun c => c.regionID) (fun s => s.regionID) (fun s => s.id) [c] [d] isRegionChange
      = ([], [], []) ∧
    RegionSync opt (.ok [c]) [d] pageLimit cloudSecond maxLimit store = ([], .ok {}) := by
  have h1 : isRegionChange c d = false := by
    simp [isRegionChange, hid, hname, hstate]
  have hlook : diffLookup (fun s => s.regionID) [d] d.regionID = some d := by
    simp [diffLookup]
  have hdiff : Diff (fun c => c.regionID) (fun s => s.regionID) (fun s => s.id)
      [c] [d] isRegionChange = ([], [], []) := by
    simp [Diff, updateCandidate, hlook, h1, hid]
  refine ⟨h1, hdiff, ?_⟩
  rw [RegionSync]
  simp only [if_neg hacct]
  rw [listRegionFromDB_all [d] pageLimit hpl, hdiff]
  simp

theorem region_change_ignores_endpoint_witness :
    ("ep-new" ≠ "ep-old") ∧
    isRegionChange ⟨"r1", "n1", "available", "ep-new"⟩
      ⟨"k1", "r1", "n1", "available", "ep-old"⟩ = false ∧
    RegionSync ⟨"acc-1", false⟩ (.ok [⟨"r1", "n1", "available", "ep-new"⟩])
      [⟨"k1", "r1", "n1", "available", "ep-old"⟩] 500 (.ok []) 100 (fun _ => none) =
      ([], .ok {}) := by
  have h := region_change_ignores_endpoint ⟨"r1", "n1", "available", "ep-new"⟩
    ⟨"k1", "r1", "n1", "available", "ep-old"⟩ rfl rfl rfl (by decide)
    ⟨"acc-1", false⟩ (by decide) 500 (by decide) (.ok []) 100 (fun _ => none)
  exact ⟨by decide, h.1, h.2.2⟩

theorem runDeleteBatches_all_ok (batches : List StoreCall) (store : StoreCall → Option String)
    (h : ∀ c, store c = none) : runDeleteBatches batches store = (batches, none) := by
  induction batches with
  | nil => rfl
  | cons b rest ih => simp [runDeleteBatches, h, ih]

theorem sliceSplit_flatten {α : Type} (xs : List α) (l : Nat) (h : 0 < l) :
    (sliceSplit xs l).flatten = xs := by
  induction xs, l using sliceSplit.induct with
  | case1 x => omega
  | case2 l hx => rw [sliceSplit]; simp
  | case3 l hx x rest ih =>
    rw [sliceSplit]
    simp only [dif_neg hx, List.flatten_cons]
    rw [ih (by omega)]
    exact List.take_append_drop _ _

theorem sliceSplit_chunks {α : Type} (xs : List α) (l : Nat) (h : 0 < l) :
    ∀ b ∈ sliceSplit xs l, b.length ≤ l ∧ b ≠ [] := by
  induction xs, l using sliceSplit.induct with
  | case1 x => omega
  | case2 l hx => rw [sliceSplit]; simp
  | case3 l hx x rest ih =>
    rw [sliceSplit]
    simp only [dif_neg hx, List.mem_cons]
    rintro b (rfl | hb)
    · refine ⟨by simp, by simp [List.take_eq_nil_iff]; omega⟩
    · exact ih (by omega) b hb

theorem sliceSplit_five_two {α : Type} (xs : List α) (h : xs.length = 5) :
    (sliceSplit xs 2).map List.length = [2, 2, 1] := by
  match xs, h with
  | [a, b, c, d, e], _ => simp [sliceSplit]

/-- C5: once the safety re-check passes, the delete phase splits the
candidate identifiers into consecutive batches of at most the max-batch bound
and issues exactly one delete call per batch, each matching `region_id`
against its batch with an in-set filter; the batches concatenate back to the
candidate list, and with bound 2 and 5 candidates the batch sizes are
2, 2, 1. -/
theorem delete_batches_split (ids : List String) (cv2 : List AwsRegion) (maxLimit : Nat)
    (store : StoreCall → Option String)
    (hne : ids ≠ []) (hml : 0 < maxLimit)
    (hpass : ∀ r ∈ cv2, r.regionID ∉ ids)
    (hstore : ∀ c, store c = none) :
    deleteRegion ids (.ok cv2) maxLimit store =
      ((sliceSplit ids maxLimit).map
        (fun parts => StoreCall.delete (containersExpression "region_id" parts)), none) ∧
    (sliceSplit ids maxLimit).flatten = ids ∧
    (∀ b ∈ sliceSplit ids maxLimit, b.length ≤ maxLimit ∧ b ≠ []) ∧
    (ids.length = 5 → maxLimit = 2 → (sliceSplit ids maxLimit).map List.length = [2, 2, 1]) := by
  have hlen : ¬ ids.length = 0 := by
    simpa [List.length_eq_zero] using hne
  have hany : cv2.any (fun one => ids.contains one.regionID) = false := by
    rw [List.any_eq_false]
    intro r hr
    simpa using hpass r hr
  refine ⟨?_, sliceSplit_flatten ids maxLimit hml, sliceSplit_chunks ids maxLimit hml, ?_⟩
  · rw [deleteRegion, if_neg hlen]
    simp only [hany, Bool.false_eq_true, if_false]
    exact runDeleteBatches_all_ok _ store hstore
  · intro h5 h2
    subst h2
    exact sliceSplit_five_two ids h5

theorem delete_batches_split_witness :
    (["r1", "r2", "r3", "r4", "r5"] ≠ ([] : List String)) ∧
    (0 : Nat) < 2 ∧
    deleteRegion ["r1", "r2", "r3", "r4", "r5"] (.ok []) 2 (fun _ => none) =
      ([StoreCall.delete (containersExpression "region_id" ["r1", "r2"]),
        StoreCall.delete (containersExpression "region_id" ["r3", "r4"]),
        StoreCall.delete (containersExpression "region_id" ["r5"])], none) := by
  refine ⟨by decide, by decide, ?_⟩
  have := delete_batches_split ["r1", "r2", "r3", "r4", "r5"] [] 2 (fun _ => none)
    (by decide) (by decide) (by intro r hr; simp at hr) (fun _ => rfl)
  rw [this.1]
  simp [sliceSplit]

/-- C2: when the delete-candidate set computed by the diff is non-empty and
some candidate identifier is present in the second cloud fetch, the whole
reconciliation pass aborts with an error and no store call — in particular no
delete — is issued, for any candidate. -/
theorem delete_recheck_aborts_whole_sync (opt : SyncRegionOption) (hacct : opt.accountID ≠ "")
    (cv : List AwsRegion) (dbBacking : List AwsRegionDB) (pageLimit maxLimit : Nat)
    (cv2 : List AwsRegion) (store : StoreCall → Option String)
    (hdel : (Diff (fun c => c.regionID) (fun s => s.regionID) (fun s => s.id) cv
        (listRegionFromDB dbBacking pageLimit) isRegionChange).2.2 ≠ [])
    (hre : ∃ r ∈ cv2, r.regionID ∈ (Diff (fun c => c.regionID) (fun s => s.regionID)
        (fun s => s.id) cv (listRegionFromDB dbBacking pageLimit) isRegionChange).2.2) :
    (RegionSync opt (.ok cv) dbBacking pageLimit (.ok cv2) maxLimit store).1 = [] ∧
    ∃ e, (RegionSync opt (.ok cv) dbBacking pageLimit (.ok cv2) maxLimit store).2 =
      .error e := by
  have hshort : ¬(cv.length = 0 ∧ (listRegionFromDB dbBacking pageLimit).length = 0) := by
    rintro ⟨h1, h2⟩
    rw [List.length_eq_zero] at h1 h2
    apply hdel
    rw [h1, h2]
    rfl
  have hpos : 0 < (Diff (fun c => c.regionID) (fun s => s.regionID) (fun s => s.id) cv
      (listRegionFromDB dbBacking pageLimit) isRegionChange).2.2.length :=
    List.length_pos.mpr hdel
  have hany : cv2.any (fun one =>
      (Diff (fun c => c.regionID) (fun s => s.regionID) (fun s => s.id) cv
        (listRegionFromDB dbBacking pageLimit) isRegionChange).2.2.contains one.regionID)
      = true := by
    rw [List.any_eq_true]
    obtain ⟨r, hr, hmem⟩ := hre
    exact ⟨r, hr, by simpa using hmem⟩
  have hdelrun : deleteRegion
      (Diff (fun c => c.regionID) (fun s => s.regionID) (fun s => s.id) cv
        (listRegionFromDB dbBacking pageLimit) isRegionChange).2.2
      (.ok cv2) maxLimit store
      = ([], some "validate region not exist failed, before delete") := by
    rw [deleteRegion, if_neg (by omega)]
    simp only [hany, if_true]
  rw [RegionSync]
  simp only [if_neg hacct, if_neg hshort, hdelrun, if_pos hpos]
  exact ⟨trivial, "validate region not exist failed, before delete", rfl⟩

theorem delete_recheck_aborts_whole_sync_witness :
    (Diff (fun c => c.regionID) (fun s => s.regionID) (fun s => s.id) ([] : List AwsRegion)
        (listRegionFromDB
          [(⟨"k1", "rA", "nA", "s", "e"⟩ : AwsRegionDB), ⟨"k2", "rB", "nB", "s", "e"⟩] 10)
        isRegionChange).2.2 = ["rA", "rB"] ∧
    (RegionSync ⟨"acc-1", false⟩ (.ok [])
        [⟨"k1", "rA", "nA", "s", "e"⟩, ⟨"k2", "rB", "nB", "s", "e"⟩] 10
        (.ok [⟨"rA", "nA", "available", "e2"⟩]) 100 (fun _ => none)).1 = [] ∧
    ∃ e, (RegionSync ⟨"acc-1", false⟩ (.ok [])
        [⟨"k1", "rA", "nA", "s", "e"⟩, ⟨"k2", "rB", "nB", "s", "e"⟩] 10
        (.ok [⟨"rA", "nA", "available", "e2"⟩]) 100 (fun _ => none)).2 = .error e := by
  have hdb : listRegionFromDB
      [(⟨"k1", "rA", "nA", "s", "e"⟩ : AwsRegionDB), ⟨"k2", "rB", "nB", "s", "e"⟩] 10 =
      [⟨"k1", "rA", "nA", "s", "e"⟩, ⟨"k2", "rB", "nB", "s", "e"⟩] :=
    listRegionFromDB_all _ _ (by decide)
  have h1 : (Diff (fun c => c.regionID) (fun s => s.regionID) (fun s => s.id)
      ([] : List AwsRegion)
      (listRegionFromDB
        [(⟨"k1", "rA", "nA", "s", "e"⟩ : AwsRegionDB), ⟨"k2", "rB", "nB", "s", "e"⟩] 10)
      isRegionChange).2.2 = ["rA", "rB"] := by
    rw [hdb]
    decide
  have happ := delete_recheck_aborts_whole_sync ⟨"acc-1", false⟩ (by decide) []
    [⟨"k1", "rA", "nA", "s", "e"⟩, ⟨"k2", "rB", "nB", "s", "e"⟩] 10 100
    [⟨"rA", "nA", "available", "e2"⟩] (fun _ => none)
    (by rw [h1]; decide)
    ⟨⟨"rA", "nA", "available", "e2"⟩, by decide, by rw [h1]; decide⟩
  exact ⟨h1, happ.1, happ.2⟩

theorem checkFieldsIn_ok (fields modelFields : List String) (tn : String)
    (h : ∀ f ∈ fields, f ∈ modelFields) :
    checkFieldsIn fields modelFields tn = .ok fields := by
  induction fields with
  | nil => rfl
  | cons f rest ih =>
    have hfm : f ∈ modelFields := h f (by simp)
    rw [checkFieldsIn]
    simp [hfm, ih (fun g hg => h g (by simp [hg]))]

theorem checkFieldsIn_error (fields modelFields : List String) (tn : String)
    (h : ∃ f ∈ fields, f ∉ modelFields) :
    ∃ e, checkFieldsIn fields modelFields tn = .error e := by
  induction fields with
  | nil => simp at h
  | cons f rest ih =>
    by_cases hf : f ∈ modelFields
    · obtain ⟨g, hg, hgm⟩ := h
      rcases List.mem_cons.mp hg with rfl | hgrest
      · exact absurd hf hgm
      · obtain ⟨e, he⟩ := ih ⟨g, hgrest, hgm⟩
        refine ⟨e, ?_⟩
        rw [checkFieldsIn]
        simp [hf, he]
    · refine ⟨"field " ++ f ++ " not in " ++ tn ++ " db tag", ?_⟩
      rw [checkFieldsIn]
      simp [hf]

theorem fieldKVLoop_ok (fields modelFields : List String) (tn : String) (v : String → String)
    (h : ∀ f ∈ fields, f ∈ modelFields) :
    fieldKVLoop fields modelFields tn v = .ok (fields.map (fun f => (f, v f))) := by
  induction fields with
  | nil => rfl
  | cons f rest ih =>
    have hfm : f ∈ modelFields := h f (by simp)
    rw [fieldKVLoop]
    simp [hfm, ih (fun g hg => h g (by simp [hg]))]

theorem fieldKVLoop_error (fields modelFields : List String) (tn : String) (v : String → String)
    (h : ∃ f ∈ fields, f ∉ modelFields) :
    ∃ e, fieldKVLoop fields modelFields tn v = .error e := by
  induction fields with
  | nil => simp at h
  | cons f rest ih =>
    by_cases hf : f ∈ modelFields
    · obtain ⟨g, hg, hgm⟩ := h
      rcases List.mem_cons.mp hg with rfl | hgrest
      · exact absurd hf hgm
      · obtain ⟨e, he⟩ := ih ⟨g, hgrest, hgm⟩
        refine ⟨e, ?_⟩
        rw [fieldKVLoop]
        simp [hf, he]
    · refine ⟨"field " ++ f ++ " not in " ++ tn ++ " db tag", ?_⟩
      rw [fieldKVLoop]
      simp [hf]

/-- C6 (counterexample): the declared update field list `["updated_at"]`
names a field absent from the schema `["name"]`, yet no configuration error is
raised — `FieldKVForUpdate` removes the managed timestamp field before
validating (`table.go:111`) — and an UPDATE statement is still produced. -/
theorem field_validation_timestamp_counterexample :
    ("updated_at" ∈ (⟨[], ["updated_at"]⟩ : TableManager).UpdateFields) ∧
    "updated_at" ∉ ["name"] ∧
    FieldKVForUpdate ⟨[], ["updated_at"]⟩ ["name"] "AccountTable" (fun _ => "v") =
      .ok [] ∧
    SQLForUpdate ⟨[], ["updated_at"]⟩ "account" "AccountTable" ["name"] (fun _ => "v")
      (.ok "WHERE id = :id") = .ok "UPDATE account set  WHERE id = :id" :=
  ⟨by decide, by decide, rfl, rfl⟩

/-- C6 (amended): a declared insert field missing from the list of
`db`-tagged fields is a fatal configuration error at first use, and likewise
for declared update fields except the managed timestamp field, which is
removed from the update list before validation and therefore never triggers
the error; when every declared field (non-timestamp, for updates) is in the
schema, no error is raised; a raised error propagates so that no INSERT or
UPDATE statement is produced. -/
theorem field_list_validation (tm : TableManager) (modelFields : List String)
    (typeName : String) (value : String → String) :
    ((∃ f ∈ tm.InsertFields, f ∉ modelFields) →
      ∃ e, listInsertFields tm modelFields typeName = .error e) ∧
    ((∀ f ∈ tm.InsertFields, f ∈ modelFields) →
      ∃ l, listInsertFields tm modelFields typeName = .ok l) ∧
    ((∃ f ∈ tm.UpdateFields, f ≠ updateTimeField ∧ f ∉ modelFields) →
      ∃ e, FieldKVForUpdate tm modelFields typeName value = .error e) ∧
    ((∀ f ∈ tm.UpdateFields, f ≠ updateTimeField → f ∈ modelFields) →
      ∃ kv, FieldKVForUpdate tm modelFields typeName value = .ok kv) ∧
    ((∃ e, listInsertFields tm modelFields typeName = .error e) →
      ∀ tableName, ∃ e, SQLForInsert tm tableName typeName modelFields = .error e) ∧
    ((∃ e, FieldKVForUpdate tm modelFields typeName value = .error e) →
      ∀ tableName w, ∃ e,
        SQLForUpdate tm tableName typeName modelFields value (.ok w) = .error e) := by
  refine ⟨?_, ?_, ?_, ?_, ?_, ?_⟩
  · rintro ⟨f, hf, hfm⟩
    have hne : ¬ tm.InsertFields.length = 0 := by
      intro h0
      rw [List.length_eq_zero] at h0
      rw [h0] at hf
      simp at hf
    obtain ⟨e, he⟩ := checkFieldsIn_error tm.InsertFields modelFields typeName ⟨f, hf, hfm⟩
    exact ⟨e, by rw [listInsertFields, if_neg hne]; exact he⟩
  · intro h
    by_cases h0 : tm.InsertFields.length = 0
    · exact ⟨modelFields, by rw [listInsertFields, if_pos h0]⟩
    · exact ⟨tm.InsertFields, by
        rw [listInsertFields, if_neg h0]
        exact checkFieldsIn_ok _ _ _ h⟩
  · rintro ⟨f, hf, hne, hfm⟩
    have hmem : f ∈ sliceRemove tm.UpdateFields updateTimeField := by
      simp [sliceRemove, List.mem_filter, hf, hne]
    exact fieldKVLoop_error _ _ _ _ ⟨f, hmem, hfm⟩
  · intro h
    refine ⟨_, fieldKVLoop_ok _ _ _ _ ?_⟩
    intro f hf
    rw [sliceRemove, List.mem_filter] at hf
    exact h f hf.1 (by simpa using hf.2)
  · rintro ⟨e, he⟩ tableName
    exact ⟨e, by rw [SQLForInsert, he]⟩
  · rintro ⟨e, he⟩ tableName w
    exact ⟨e, by rw [SQLForUpdate, he]⟩

theorem field_list_validation_witness :
    (∃ e, listInsertFields ⟨["nonexistent"], []⟩ ["name", "updated_at"] "AccountTable" =
      .error e) ∧
    (∃ kv, FieldKVForUpdate ⟨["nonexistent"], ["name"]⟩ ["name", "updated_at"]
      "AccountTable" (fun _ => "v") = .ok kv) := by
  have h := field_list_validation ⟨["nonexistent"], []⟩ ["name", "updated_at"]
    "AccountTable" (fun _ => "v")
  have h2 := field_list_validation ⟨["nonexistent"], ["name"]⟩ ["name", "updated_at"]
    "AccountTable" (fun _ => "v")
  exact ⟨h.1 ⟨"nonexistent", by decide, by decide⟩,
    h2.2.2.2.1 (by intro f hf hne; simp at hf; simp [hf])⟩

/-- C7: when the schema contains the managed timestamp column, the UPDATE
statement has a SET clause covering exactly the declared `UpdateFields` minus
the timestamp field and always additionally sets `updated_at = now()`;
declaring zero update fields is legal and leaves only the timestamp
assignment. -/
theorem sql_for_update_set_clause (tm : TableManager) (tableName typeName : String)
    (modelFields : List String) (value : String → String) (w : String)
    (hts : updateTimeField ∈ modelFields)
    (hok : ∀ f ∈ tm.UpdateFields, f ≠ updateTimeField → f ∈ modelFields) :
    ∃ kv, FieldKVForUpdate tm modelFields typeName value = .ok kv ∧
      (∀ f, f ∈ kv.map Prod.fst ↔ (f ∈ tm.UpdateFields ∧ f ≠ updateTimeField)) ∧
      (tm.UpdateFields = [] → kv = []) ∧
      SQLForUpdate tm tableName typeName modelFields value (.ok w) =
        .ok ("UPDATE " ++ tableName ++ " set " ++ String.intercalate ", "
          (kv.map (fun p => p.1 ++ " = :" ++ p.1) ++ [updateTimeField ++ " = now()"])
          ++ " " ++ w) := by
  have hkv : FieldKVForUpdate tm modelFields typeName value =
      .ok ((sliceRemove tm.UpdateFields updateTimeField).map (fun f => (f, value f))) := by
    apply fieldKVLoop_ok
    intro f hf
    rw [sliceRemove, List.mem_filter] at hf
    exact hok f hf.1 (by simpa using hf.2)
  refine ⟨_, hkv, ?_, ?_, ?_⟩
  · intro f
    rw [List.map_map]
    simp only [sliceRemove, List.mem_map, List.mem_filter]
    constructor
    · rintro ⟨g, ⟨hg, hgne⟩, rfl⟩
      exact ⟨hg, by simpa using hgne⟩
    · rintro ⟨hf, hne⟩
      exact ⟨f, ⟨hf, by simpa using hne⟩, rfl⟩
  · intro h0
    rw [h0]
    rfl
  · rw [SQLForUpdate, hkv]
    simp [hts]

theorem sql_for_update_set_clause_witness :
    (updateTimeField ∈ ["name", "updated_at"]) ∧
    (∃ kv, FieldKVForUpdate ⟨[], ["name"]⟩ ["name", "updated_at"] "AccountTable"
        (fun _ => "v") = .ok kv ∧
      (∀ f, f ∈ kv.map Prod.fst ↔
        (f ∈ (⟨[], ["name"]⟩ : TableManager).UpdateFields ∧ f ≠ updateTimeField)) ∧
      ((⟨[], ["name"]⟩ : TableManager).UpdateFields = [] → kv = []) ∧
      SQLForUpdate ⟨[], ["name"]⟩ "account" "AccountTable" ["name", "updated_at"]
          (fun _ => "v") (.ok "WHERE id = :id") =
        .ok ("UPDATE " ++ "account" ++ " set " ++ String.intercalate ", "
          (kv.map (fun p => p.1 ++ " = :" ++ p.1) ++ [updateTimeField ++ " = now()"])
          ++ " " ++ "WHERE id = :id")) ∧
    SQLForUpdate ⟨[], ["name"]⟩ "account" "AccountTable" ["name", "updated_at"]
        (fun _ => "v") (.ok "WHERE id = :id") =
      .ok "UPDATE account set name = :name, updated_at = now() WHERE id = :id" ∧
    SQLForUpdate ⟨[], []⟩ "account" "AccountTable" ["name", "updated_at"]
        (fun _ => "v") (.ok "WHERE id = :id") =
      .ok "UPDATE account set updated_at = now() WHERE id = :id" := by
  refine ⟨by decide, ?_, rfl, rfl⟩
  exact sql_for_update_set_clause ⟨[], ["name"]⟩ "account" "AccountTable"
    ["name", "updated_at"] (fun _ => "v") "WHERE id = :id" (by decide)
    (by intro f hf hne; simp at hf; simp [hf])

theorem diffLookup_eq_none_iff {S : Type} (keyS : S → String) (store : List S) (id : String) :
    diffLookup keyS store id = none ↔ ∀ s ∈ store, keyS s ≠ id := by
  simp [diffLookup, List.find?_eq_none]

theorem diffLookup_eq_some {S : Type} (keyS : S → String) (store : List S) (id : String)
    (s : S) (h : diffLookup keyS store id = some s) : s ∈ store ∧ keyS s = id := by
  refine ⟨List.mem_of_find?_eq_some h, ?_⟩
  have := List.find?_some h
  simpa using this

theorem mem_diffCreateIDs_iff {C S : Type} (keyC : C → String) (keyS : S → String)
    (skey : S → String) (cloudView : List C) (storeView : List S) (isChange : C → S → Bool)
    (id : String) :
    id ∈ diffCreateIDs keyC keyS skey cloudView storeView isChange ↔
      ((∃ c ∈ cloudView, keyC c = id) ∧ diffLookup keyS storeView id = none) := by
  unfold diffCreateIDs Diff
  simp only [List.mem_map, List.mem_filter, Option.isNone_iff_eq_none]
  constructor
  · rintro ⟨c, ⟨hc, hlook⟩, rfl⟩
    exact ⟨⟨c, hc, rfl⟩, hlook⟩
  · rintro ⟨⟨c, hc, rfl⟩, hlook⟩
    exact ⟨c, ⟨hc, hlook⟩, rfl⟩

theorem mem_diffUpdateIDs_iff {C S : Type} (keyC : C → String) (keyS : S → String)
    (skey : S → String) (cloudView : List C) (storeView : List S) (isChange : C → S → Bool)
    (id : String) :
    id ∈ diffUpdateIDs keyC keyS skey cloudView storeView isChange ↔
      ∃ c ∈ cloudView, keyC c = id ∧
        ∃ s, diffLookup keyS storeView id = some s ∧ isChange c s = true := by
  unfold diffUpdateIDs Diff
  simp only [List.mem_map, List.mem_filterMap]
  constructor
  · rintro ⟨p, ⟨c, hc, hg⟩, hkey⟩
    cases hlook : diffLookup keyS storeView (keyC c) with
    | none => rw [hlook] at hg; simp [updateCandidate] at hg
    | some s =>
      rw [hlook] at hg
      simp only [updateCandidate] at hg
      by_cases hch : isChange c s = true
      · rw [if_pos hch] at hg
        obtain rfl := Option.some_injective _ hg
        refine ⟨c, hc, hkey, s, ?_, hch⟩
        rw [← hkey]
        exact hlook
      · rw [if_neg hch] at hg
        cases hg
  · rintro ⟨c, hc, hkey, s, hlook, hch⟩
    refine ⟨(skey s, c), ⟨c, hc, ?_⟩, hkey⟩
    rw [hkey, hlook]
    simp only [updateCandidate, if_pos hch]

theorem mem_diffUnchangedIDs_iff {C S : Type} (keyC : C → String) (keyS : S → String)
    (cloudView : List C) (storeView : List S) (isChange : C → S → Bool)
    (id : String) :
    id ∈ diffUnchangedIDs keyC keyS cloudView storeView isChange ↔
      ∃ c ∈ cloudView, keyC c = id ∧
        ∃ s, diffLookup keyS storeView id = some s ∧ isChange c s = false := by
  unfold diffUnchangedIDs
  simp only [List.mem_filterMap]
  constructor
  · rintro ⟨c, hc, hg⟩
    cases hlook : diffLookup keyS storeView (keyC c) with
    | none => rw [hlook] at hg; simp [unchangedCandidate] at hg
    | some s =>
      rw [hlook] at hg
      simp only [unchangedCandidate] at hg
      by_cases hch : isChange c s = true
      · rw [if_pos hch] at hg
        cases hg
      · rw [if_neg hch] at hg
        obtain rfl := Option.some_injective _ hg
        refine ⟨c, hc, rfl, s, hlook, by simpa using hch⟩
  · rintro ⟨c, hc, hkey, s, hlook, hch⟩
    refine ⟨c, hc, ?_⟩
    rw [hkey, hlook]
    simp only [unchangedCandidate, if_neg (by simp [hch] : ¬ isChange c s = true)]
    rw [hkey]

theorem mem_diffDeleteIDs_iff {C S : Type} (keyC : C → String) (keyS : S → String)
    (skey : S → String) (cloudView : List C) (storeView : List S) (isChange : C → S → Bool)
    (id : String) :
    id ∈ diffDeleteIDs keyC keyS skey cloudView storeView isChange ↔
      ((∃ s ∈ storeView, keyS s = id) ∧ ∀ c ∈ cloudView, keyC c ≠ id) := by
  unfold diffDeleteIDs Diff
  simp only [List.mem_map, List.mem_filter, List.all_eq_true]
  constructor
  · rintro ⟨s, ⟨hs, hall⟩, rfl⟩
    refine ⟨⟨s, hs, rfl⟩, ?_⟩
    intro c hc
    simpa using hall c hc
  · rintro ⟨⟨s, hs, rfl⟩, hnone⟩
    refine ⟨s, ⟨hs, ?_⟩, rfl⟩
    intro c hc
    simpa using hnone c hc

/-- C1: for input views each keyed by its cloud identifier, `Diff` places
every identifier present in either view into exactly one of `toCreate`,
`toUpdate`, `toDeleteCloudIDs` or the unchanged set: the four memberships are
mutually exclusive and together cover every identifier seen in either
input. -/
theorem diff_partitions_identifiers {C S : Type} (keyC : C → String) (keyS : S → String)
    (skey : S → String) (cloudView : List C) (storeView : List S) (isChange : C → S → Bool)
    (hc : (cloudView.map keyC).Nodup) (_hs : (storeView.map keyS).Nodup)
    (id : String) (hid : id ∈ cloudView.map keyC ∨ id ∈ storeView.map keyS) :
    (id ∈ diffCreateIDs keyC keyS skey cloudView storeView isChange ∧
      id ∉ diffUpdateIDs keyC keyS skey cloudView storeView isChange ∧
      id ∉ diffDeleteIDs keyC keyS skey cloudView storeView isChange ∧
      id ∉ diffUnchangedIDs keyC keyS cloudView storeView isChange) ∨
    (id ∉ diffCreateIDs keyC keyS skey cloudView storeView isChange ∧
      id ∈ diffUpdateIDs keyC keyS skey cloudView storeView isChange ∧
      id ∉ diffDeleteIDs keyC keyS skey cloudView storeView isChange ∧
      id ∉ diffUnchangedIDs keyC keyS cloudView storeView isChange) ∨
    (id ∉ diffCreateIDs keyC keyS skey cloudView storeView isChange ∧
      id ∉ diffUpdateIDs keyC keyS skey cloudView storeView isChange ∧
      id ∈ diffDeleteIDs keyC keyS skey cloudView storeView isChange ∧
      id ∉ diffUnchangedIDs keyC keyS cloudView storeView isChange) ∨
    (id ∉ diffCreateIDs keyC keyS skey cloudView storeView isChange ∧
      id ∉ diffUpdateIDs keyC keyS skey cloudView storeView isChange ∧
      id ∉ diffDeleteIDs keyC keyS skey cloudView storeView isChange ∧
      id ∈ diffUnchangedIDs keyC keyS cloudView storeView isChange) := by
  by_cases hcl : ∃ c ∈ cloudView, keyC c = id
  · obtain ⟨c, hcmem, hcid⟩ := hcl
    cases hlook : diffLookup keyS storeView id with
    | none =>
      left
      refine ⟨(mem_diffCreateIDs_iff keyC keyS skey cloudView storeView isChange id).mpr
        ⟨⟨c, hcmem, hcid⟩, hlook⟩, ?_, ?_, ?_⟩
      · intro hmem
        obtain ⟨c', _, _, s, hlook', _⟩ :=
          (mem_diffUpdateIDs_iff keyC keyS skey cloudView storeView isChange id).mp hmem
        rw [hlook] at hlook'
        cases hlook'
      · intro hmem
        obtain ⟨_, hnone⟩ :=
          (mem_diffDeleteIDs_iff keyC keyS skey cloudView storeView isChange id).mp hmem
        exact hnone c hcmem hcid
      · intro hmem
        obtain ⟨c', _, _, s, hlook', _⟩ :=
          (mem_diffUnchangedIDs_iff keyC keyS cloudView storeView isChange id).mp hmem
        rw [hlook] at hlook'
        cases hlook'
    | some s =>
      have hinj := List.inj_on_of_nodup_map hc
      by_cases hch : isChange c s = true
      · right; left
        refine ⟨?_, (mem_diffUpdateIDs_iff keyC keyS skey cloudView storeView isChange id).mpr
          ⟨c, hcmem, hcid, s, hlook, hch⟩, ?_, ?_⟩
        · intro hmem
          obtain ⟨_, hnone⟩ :=
            (mem_diffCreateIDs_iff keyC keyS skey cloudView storeView isChange id).mp hmem
          rw [hlook] at hnone
          cases hnone
        · intro hmem
          obtain ⟨_, hnone⟩ :=
            (mem_diffDeleteIDs_iff keyC keyS skey cloudView storeView isChange id).mp hmem
          exact hnone c hcmem hcid
        · intro hmem
          obtain ⟨c', hc'mem, hc'id, s', hlook', hch'⟩ :=
            (mem_diffUnchangedIDs_iff keyC keyS cloudView storeView isChange id).mp hmem
          rw [hlook] at hlook'
          obtain rfl := Option.some_injective _ hlook'.symm
          obtain rfl : c' = c := hinj hc'mem hcmem (by rw [hc'id, hcid])
          rw [hch] at hch'
          cases hch'
      · have hchf : isChange c s = false := by simpa using hch
        right; right; right
        refine ⟨?_, ?_, ?_, (mem_diffUnchangedIDs_iff keyC keyS cloudView storeView
          isChange id).mpr ⟨c, hcmem, hcid, s, hlook, hchf⟩⟩
        · intro hmem
          obtain ⟨_, hnone⟩ :=
            (mem_diffCreateIDs_iff keyC keyS skey cloudView storeView isChange id).mp hmem
          rw [hlook] at hnone
          cases hnone
        · intro hmem
          obtain ⟨c', hc'mem, hc'id, s', hlook', hch'⟩ :=
            (mem_diffUpdateIDs_iff keyC keyS skey cloudView storeView isChange id).mp hmem
          rw [hlook] at hlook'
          obtain rfl := Option.some_injective _ hlook'.symm
          obtain rfl : c' = c := hinj hc'mem hcmem (by rw [hc'id, hcid])
          rw [hchf] at hch'
          cases hch'
        · intro hmem
          obtain ⟨_, hnone⟩ :=
            (mem_diffDeleteIDs_iff keyC keyS skey cloudView storeView isChange id).mp hmem
          exact hnone c hcmem hcid
  · have hst : ∃ s ∈ storeView, keyS s = id := by
      rcases hid with hcloud | hstore
      · exact absurd (List.mem_map.mp hcloud) hcl
      · exact List.mem_map.mp hstore
    right; right; left
    refine ⟨?_, ?_, (mem_diffDeleteIDs_iff keyC keyS skey cloudView storeView isChange
      id).mpr ⟨hst, fun c hc heq => hcl ⟨c, hc, heq⟩⟩, ?_⟩
    · intro hmem
      obtain ⟨hex, _⟩ :=
        (mem_diffCreateIDs_iff keyC keyS skey cloudView storeView isChange id).mp hmem
      exact hcl hex
    · intro hmem
      obtain ⟨c', hc'mem, hc'id, _⟩ :=
        (mem_diffUpdateIDs_iff keyC keyS skey cloudView storeView isChange id).mp hmem
      exact hcl ⟨c', hc'mem, hc'id⟩
    · intro hmem
      obtain ⟨c', hc'mem, hc'id, _⟩ :=
        (mem_diffUnchangedIDs_iff keyC keyS cloudView storeView isChange id).mp hmem
      exact hcl ⟨c', hc'mem, hc'id⟩

theorem diff_partitions_identifiers_witness :
    "r2" ∈ diffUpdateIDs (fun c => c.regionID) (fun s => s.regionID) (fun s => s.id)
      [⟨"r1", "n1", "available", "e"⟩, ⟨"r2", "n2", "available", "e"⟩,
        ⟨"r3", "n3", "available", "e"⟩]
      [⟨"k2", "r2", "n2-old", "available", "e"⟩, ⟨"k3", "r3", "n3", "available", "e2"⟩,
        ⟨"k4", "r4", "n4", "available", "e"⟩] isRegionChange ∧
    "r2" ∉ diffCreateIDs (fun c => c.regionID) (fun s => s.regionID) (fun s => s.id)
      [⟨"r1", "n1", "available", "e"⟩, ⟨"r2", "n2", "available", "e"⟩,
        ⟨"r3", "n3", "available", "e"⟩]
      [⟨"k2", "r2", "n2-old", "available", "e"⟩, ⟨"k3", "r3", "n3", "available", "e2"⟩,
        ⟨"k4", "r4", "n4", "available", "e"⟩] isRegionChange ∧
    "r2" ∉ diffDeleteIDs (fun c => c.regionID) (fun s => s.regionID) (fun s => s.id)
      [⟨"r1", "n1", "available", "e"⟩, ⟨"r2", "n2", "available", "e"⟩,
        ⟨"r3", "n3", "available", "e"⟩]
      [⟨"k2", "r2", "n2-old", "available", "e"⟩, ⟨"k3", "r3", "n3", "available", "e2"⟩,
        ⟨"k4", "r4", "n4", "available", "e"⟩] isRegionChange ∧
    "r2" ∉ diffUnchangedIDs (fun c => c.regionID) (fun s => s.regionID)
      [⟨"r1", "n1", "available", "e"⟩, ⟨"r2", "n2", "available", "e"⟩,
        ⟨"r3", "n3", "available", "e"⟩]
      [⟨"k2", "r2", "n2-old", "available", "e"⟩, ⟨"k3", "r3", "n3", "available", "e2"⟩,
        ⟨"k4", "r4", "n4", "available", "e"⟩] isRegionChange := by
  have h := diff_partitions_identifiers (fun c => c.regionID) (fun s => s.regionID)
    (fun s => s.id)
    [⟨"r1", "n1", "available", "e"⟩, ⟨"r2", "n2", "available", "e"⟩,
      ⟨"r3", "n3", "available", "e"⟩]
    [⟨"k2", "r2", "n2-old", "available", "e"⟩, ⟨"k3", "r3", "n3", "available", "e2"⟩,
      ⟨"k4", "r4", "n4", "available", "e"⟩] isRegionChange
    (by decide) (by decide) "r2" (Or.inl (by decide))
  rcases h with ⟨h1, _⟩ | ⟨h1, h2, h3, h4⟩ | ⟨_, _, h3, _⟩ | ⟨_, _, _, h4⟩
  · exact absurd h1 (by decide)
  · exact ⟨h2, h1, h3, h4⟩
  · exact absurd h3 (by decide)
  · exact absurd h4 (by decide)

end BkHcm
